import Mathlib

/-!
Shallow embedding of `fanduel-lpsolve/gen_lp.py`, a one-shot batch tool that
loads FanDuel player projections, filters out low projections, and writes an
`lp_solve` model to standard output.  Machine floats of the source are modelled
as rationals, salaries as integers; each `print` statement of `write_lp_file`
becomes one element of a list of output lines.  The per-player call to
`random.uniform(a, b)` is modelled by its CPython definition `a + (b - a) * u`
where `u` is the unit draw supplied by the random source, one independent draw
per player.
-/

namespace GenLp

/-- PlayerDatum mirrors the namedtuple `PlayerDatum(name, position, salary, projection)`. -/
structure PlayerDatum where
  name : String
  position : String
  salary : Int
  projection : ℚ
deriving DecidableEq

/-- RosterByPosition mirrors the dictionary `{'QB': [], 'RB': [], 'WR': [], 'TE': [], 'K': [], 'D': []}`
built by `load_player_data`: a fixed six-key map from position code to an ordered
list of `PlayerDatum`. -/
structure RosterByPosition where
  qb : List PlayerDatum
  rb : List PlayerDatum
  wr : List PlayerDatum
  te : List PlayerDatum
  k : List PlayerDatum
  d : List PlayerDatum
deriving DecidableEq

/-- Pos enumerates the six recognized position codes. -/
inductive Pos where
  | QB | RB | WR | TE | K | D
deriving DecidableEq

/-- Accessor for the list stored under a recognized position code. -/
def RosterByPosition.get (r : RosterByPosition) : Pos → List PlayerDatum
  | .QB => r.qb
  | .RB => r.rb
  | .WR => r.wr
  | .TE => r.te
  | .K => r.k
  | .D => r.d

/-- The empty roster `{'QB': [], 'RB': [], 'WR': [], 'TE': [], 'K': [], 'D': []}`. -/
def emptyRoster : RosterByPosition := ⟨[], [], [], [], [], []⟩

/-- One step of `player_data[player_datum.position].append(player_datum)`: a
lookup into the fixed six-key dictionary with no default branch, so an
unrecognized position code raises (modelled as `Except.error`), and a
recognized one appends the record to that position's list. -/
def appendAt (r : RosterByPosition) (p : PlayerDatum) : Except String RosterByPosition :=
  match p.position with
  | "QB" => .ok { r with qb := r.qb ++ [p] }
  | "RB" => .ok { r with rb := r.rb ++ [p] }
  | "WR" => .ok { r with wr := r.wr ++ [p] }
  | "TE" => .ok { r with te := r.te ++ [p] }
  | "K" => .ok { r with k := r.k ++ [p] }
  | "D" => .ok { r with d := r.d ++ [p] }
  | other => .error ("KeyError: " ++ other)

/-- Row loop of `load_player_data`, threading the roster accumulator. -/
def loadFrom (acc : RosterByPosition) : List PlayerDatum → Except String RosterByPosition
  | [] => .ok acc
  | p :: rest =>
    match appendAt acc p with
    | .error e => .error e
    | .ok acc2 => loadFrom acc2 rest

/-- Embedding of `load_player_data`: rows are records whose numeric columns have
already been parsed (`int(row['SALARY'])`, `float(row['PROJECTION'])`); this
claim-relevant part is the grouping of rows into the fixed position dictionary. -/
def loadPlayerData (rows : List PlayerDatum) : Except String RosterByPosition :=
  loadFrom emptyRoster rows

/-- Embedding of the filter step
`filter(lambda p: p.projection >= args.min_player_proj, player_data[position])`. -/
def filterPos (t : ℚ) (l : List PlayerDatum) : List PlayerDatum :=
  l.filter (fun p => decide (t ≤ p.projection))

/-- The `__main__` filter loop, applied to every position of the roster. -/
def filterRoster (r : RosterByPosition) (t : ℚ) : RosterByPosition :=
  ⟨filterPos t r.qb, filterPos t r.rb, filterPos t r.wr,
   filterPos t r.te, filterPos t r.k, filterPos t r.d⟩

/-- Embedding of `get_var_name`: `'%s_%s' % (player.position, filter(str.isalpha, player.name))`. -/
def varName (p : PlayerDatum) : String :=
  p.position ++ "_" ++ String.mk (p.name.toList.filter Char.isAlpha)

/-- The `all_players` list assembled from `player_data.items()` (a fixed
iteration order over the six keys). -/
def allPlayers (r : RosterByPosition) : List PlayerDatum :=
  r.qb ++ r.rb ++ r.wr ++ r.te ++ r.k ++ r.d

/-- CPython `random.uniform(a, b) = a + (b - a) * random()`, with `u` the unit draw. -/
def uniform (a b u : ℚ) : ℚ := a + (b - a) * u

/-- The objective coefficient `p.projection * random.uniform(1.0 - proj_jitter, 1.0 + proj_jitter)`. -/
def objCoeff (j u : ℚ) (p : PlayerDatum) : ℚ :=
  p.projection * uniform (1 - j) (1 + j) u

/-- The objective line `'max: %s;' % ' + '.join(...)`, one independent unit draw per player. -/
def objLine (r : RosterByPosition) (j : ℚ) (us : ℕ → ℚ) : String :=
  "max: " ++ String.intercalate " + "
    ((allPlayers r).enum.map
      (fun ip => toString (objCoeff j (us ip.1) ip.2) ++ " " ++ varName ip.2)) ++ ";"

/-- A position-count line `'<label>: %s = <c>;' % ' + '.join(...)`. -/
def limLine (label : String) (players : List PlayerDatum) (c : ℕ) : String :=
  label ++ ": " ++ String.intercalate " + " (players.map varName) ++ " = " ++ toString c ++ ";"

/-- The salary line `'sal_lim: %s <= %s;'`. -/
def salLine (r : RosterByPosition) (salaryCap : Int) : String :=
  "sal_lim: " ++ String.intercalate " + "
    ((allPlayers r).map (fun p => toString p.salary ++ " " ++ varName p)) ++
    " <= " ++ toString salaryCap ++ ";"

/-- The variable names listed in the binary declaration `'bin %s;' % ' '.join(...)`. -/
def binVars (r : RosterByPosition) : List String :=
  (allPlayers r).map varName

/-- The binary-declaration line `'bin %s;'`. -/
def binLine (r : RosterByPosition) : String :=
  "bin " ++ String.intercalate " " (binVars r) ++ ";"

/-- Embedding of `write_lp_file`: the ordered list of lines printed to stdout. -/
def writeLpFile (r : RosterByPosition) (salaryCap : Int) (projJitter : ℚ) (us : ℕ → ℚ) :
    List String :=
  [ objLine r projJitter us,
    limLine "qb_lim" r.qb 1,
    limLine "rb_lim" r.rb 2,
    limLine "wr_lim" r.wr 3,
    limLine "te_lim" r.te 1,
    limLine "k_lim" r.k 1,
    limLine "d_lim" r.d 1,
    salLine r salaryCap,
    binLine r ]

/-- The six recognized position code strings, the keys of the loader dictionary. -/
def validPositions : List String := ["QB", "RB", "WR", "TE", "K", "D"]

/-- The fixed per-position required count written on the right-hand side of each
position-count constraint. -/
def requiredCount : Pos → ℕ
  | .QB => 1
  | .RB => 2
  | .WR => 3
  | .TE => 1
  | .K => 1
  | .D => 1

/-- The constraint label printed for each position. -/
def limLabel : Pos → String
  | .QB => "qb_lim"
  | .RB => "rb_lim"
  | .WR => "wr_lim"
  | .TE => "te_lim"
  | .K => "k_lim"
  | .D => "d_lim"

/-- The zero-based index of each position's constraint among the printed lines. -/
def posIdx : Pos → ℕ
  | .QB => 1
  | .RB => 2
  | .WR => 3
  | .TE => 4
  | .K => 5
  | .D => 6

end GenLp
namespace GenLp

lemma appendAt_error_of_invalid (acc : RosterByPosition) (p : PlayerDatum)
    (h : p.position ∉ validPositions) :
    appendAt acc p = Except.error ("KeyError: " ++ p.position) := by
  unfold appendAt
  split
  all_goals first
    | rfl
    | (rename_i hpos; exact absurd (by simp [validPositions, hpos]) h)

lemma loadFrom_error_of_mem (rows : List PlayerDatum) :
    ∀ (acc : RosterByPosition) (p : PlayerDatum), p ∈ rows → p.position ∉ validPositions →
    ∃ e, loadFrom acc rows = Except.error e := by
  induction rows with
  | nil => intro acc p h _; exact absurd h (List.not_mem_nil p)
  | cons q rest ih =>
    intro acc p hmem hbad
    rcases List.mem_cons.mp hmem with hpq | hrest
    · subst hpq
      rw [loadFrom, appendAt_error_of_invalid acc p hbad]
      exact ⟨_, rfl⟩
    · rw [loadFrom]
      cases hq : appendAt acc q with
      | error e => exact ⟨e, rfl⟩
      | ok acc2 => exact ih acc2 p hrest hbad

/-- C5: a row whose position code is not among the six recognized codes makes the
loader fail (a failed lookup into the fixed dictionary with no default branch);
no such row is silently dropped or added. -/
theorem load_error_on_unknown_position (rows : List PlayerDatum) (p : PlayerDatum)
    (hmem : p ∈ rows) (hbad : p.position ∉ validPositions) :
    ∃ e, loadPlayerData rows = Except.error e :=
  loadFrom_error_of_mem rows emptyRoster p hmem hbad

/-- C5 witness: a concrete fullback row makes the loader fail. -/
theorem load_error_on_unknown_position_witness :
    ∃ e, loadPlayerData [⟨"Kyle Juszczyk", "FB", 100, 5⟩] = Except.error e :=
  load_error_on_unknown_position _ ⟨"Kyle Juszczyk", "FB", 100, 5⟩ (by simp) (by decide)

lemma count_filterPos (t : ℚ) (l : List PlayerDatum) (p : PlayerDatum) :
    (filterPos t l).count p = if t ≤ p.projection then l.count p else 0 := by
  by_cases hp : t ≤ p.projection
  · simp [filterPos, hp, List.count_filter]
  · simp only [if_neg hp]
    rw [List.count_eq_zero]
    intro hmem
    exact hp (by simpa using (List.mem_filter.mp hmem).2)

/-- C6: filtering keeps, at every position, exactly the records with projection
at or above the threshold, preserving their relative order. -/
theorem filterRoster_exact (r : RosterByPosition) (t : ℚ) (pos : Pos) :
    ((filterRoster r t).get pos).Sublist (r.get pos) ∧
    ∀ p : PlayerDatum, ((filterRoster r t).get pos).count p =
      if t ≤ p.projection then (r.get pos).count p else 0 := by
  cases pos <;>
    exact ⟨List.filter_sublist _, fun p => count_filterPos t _ p⟩

lemma filterPos_idem (t : ℚ) (l : List PlayerDatum) :
    filterPos t (filterPos t l) = filterPos t l := by
  simp [filterPos, List.filter_filter]

/-- C7: filtering an already-filtered roster at the same threshold is the identity. -/
theorem filterRoster_idem (r : RosterByPosition) (t : ℚ) :
    filterRoster (filterRoster r t) t = filterRoster r t := by
  simp [filterRoster, filterPos_idem]

end GenLp
namespace GenLp

lemma objCoeff_zero (u : ℚ) (p : PlayerDatum) : objCoeff 0 u p = p.projection := by
  simp [objCoeff, uniform]

/-- C4: with jitter fraction 0 the emitted objective coefficient of every player
is exactly that player's projection, whatever the random draw. -/
theorem objLine_zero_jitter (r : RosterByPosition) (us : ℕ → ℚ) :
    objLine r 0 us = "max: " ++ String.intercalate " + "
      ((allPlayers r).enum.map (fun ip => toString ip.2.projection ++ " " ++ varName ip.2)) ++ ";" := by
  unfold objLine
  congr 2
  congr 1
  exact List.map_congr_left (fun ip _ => by rw [objCoeff_zero])

/-- C10: with jitter fraction 0 the writer is deterministic: two runs on the same
roster and cap, with any two random sources, emit identical text. -/
theorem writeLpFile_deterministic (r : RosterByPosition) (cap : Int) (us₁ us₂ : ℕ → ℚ) :
    writeLpFile r cap 0 us₁ = writeLpFile r cap 0 us₂ := by
  have h : objLine r 0 us₁ = objLine r 0 us₂ := by
    unfold objLine
    congr 2
    congr 1
    exact List.map_congr_left (fun ip _ => by rw [objCoeff_zero, objCoeff_zero])
  simp only [writeLpFile, h]

/-- C3 counterexample: for a negative projection the coefficient does not lie in
the interval as the claim orders its endpoints. -/
theorem objCoeff_interval_counterexample :
    ¬ ∀ (p : PlayerDatum) (j u : ℚ), 0 < j → 0 ≤ u → u ≤ 1 →
      (p.projection * (1 - j) ≤ objCoeff j u p ∧ objCoeff j u p ≤ p.projection * (1 + j)) := by
  intro h
  have h2 := (h ⟨"Neg Player", "QB", 0, -10⟩ (1/2) 0 (by norm_num) le_rfl (by norm_num)).2
  norm_num [objCoeff, uniform] at h2

/-- C3 amended: the coefficient lies between the smaller and the larger of
projection*(1-j) and projection*(1+j). -/
theorem objCoeff_interval (p : PlayerDatum) (j u : ℚ)
    (hj : 0 < j) (h0 : 0 ≤ u) (h1 : u ≤ 1) :
    min (p.projection * (1 - j)) (p.projection * (1 + j)) ≤ objCoeff j u p ∧
    objCoeff j u p ≤ max (p.projection * (1 - j)) (p.projection * (1 + j)) := by
  have hlo : 1 - j ≤ uniform (1 - j) (1 + j) u := by
    simp only [uniform]; nlinarith
  have hhi : uniform (1 - j) (1 + j) u ≤ 1 + j := by
    simp only [uniform]; nlinarith
  simp only [objCoeff]
  rcases le_total 0 p.projection with hp | hp
  · exact ⟨le_trans (min_le_left _ _) (mul_le_mul_of_nonneg_left hlo hp),
      le_trans (mul_le_mul_of_nonneg_left hhi hp) (le_max_right _ _)⟩
  · exact ⟨le_trans (min_le_right _ _) (mul_le_mul_of_nonpos_left hhi hp),
      le_trans (mul_le_mul_of_nonpos_left hlo hp) (le_max_left _ _)⟩

/-- C3 witness: the amended bound at a concrete player, jitter and draw. -/
theorem objCoeff_interval_witness :
    min ((⟨"Al", "QB", 100, 4⟩ : PlayerDatum).projection * (1 - 1/2))
        ((⟨"Al", "QB", 100, 4⟩ : PlayerDatum).projection * (1 + 1/2)) ≤
      objCoeff (1/2) (1/2) ⟨"Al", "QB", 100, 4⟩ ∧
    objCoeff (1/2) (1/2) ⟨"Al", "QB", 100, 4⟩ ≤
      max ((⟨"Al", "QB", 100, 4⟩ : PlayerDatum).projection * (1 - 1/2))
          ((⟨"Al", "QB", 100, 4⟩ : PlayerDatum).projection * (1 + 1/2)) :=
  objCoeff_interval ⟨"Al", "QB", 100, 4⟩ (1/2) (1/2) (by norm_num) (by norm_num) (by norm_num)

/-- C8: the output always has nine lines: the objective first, then one equality
constraint per position in the order QB, RB, WR, TE, K, D with right-hand sides
1, 2, 3, 1, 1, 1, then the budget constraint, then the binary declaration. -/
theorem position_constraints_fixed (r : RosterByPosition) (cap : Int) (j : ℚ) (us : ℕ → ℚ) :
    (writeLpFile r cap j us).length = 9 ∧
    (writeLpFile r cap j us).get? 0 = some (objLine r j us) ∧
    (∀ pos : Pos, (writeLpFile r cap j us).get? (posIdx pos) =
      some (limLabel pos ++ ": " ++
        String.intercalate " + " (((r.get pos)).map varName) ++ " = " ++
        toString (requiredCount pos) ++ ";")) ∧
    (writeLpFile r cap j us).get? 7 = some (salLine r cap) ∧
    (writeLpFile r cap j us).get? 8 = some (binLine r) := by
  refine ⟨rfl, rfl, ?_, rfl, rfl⟩
  intro pos; cases pos <;> rfl

/-- C9: the number of names in the binary declaration equals the total number of
players surviving the filter step, over all six positions. -/
theorem binVars_length (r : RosterByPosition) (t : ℚ) :
    (binVars (filterRoster r t)).length =
      (filterPos t r.qb).length + (filterPos t r.rb).length + (filterPos t r.wr).length +
      (filterPos t r.te).length + (filterPos t r.k).length + (filterPos t r.d).length := by
  simp only [binVars, allPlayers, filterRoster, List.length_map, List.length_append]

/-- C1: on a roster with no quarterback the source still prints the full model,
the objective line first and then the malformed zero-term constraint
`qb_lim:  = 1;`, instead of failing before output. -/
theorem empty_position_emits_malformed_line :
    (writeLpFile ⟨[], [⟨"Ray Rice", "RB", 9000, 15⟩], [], [], [], []⟩ 60000 0 (fun _ => 0)).length = 9 ∧
    (writeLpFile ⟨[], [⟨"Ray Rice", "RB", 9000, 15⟩], [], [], [], []⟩ 60000 0 (fun _ => 0)).get? 1 =
      some "qb_lim:  = 1;" := by
  constructor <;> decide

/-- C2: two distinct players whose names reduce to the same alphabetic string get
the same variable name, and the source emits the duplicated name instead of
failing. -/
theorem name_collision_emits_duplicates :
    varName ⟨"Jo Smith", "QB", 9000, 20⟩ = varName ⟨"Jo-Smith", "QB", 8000, 18⟩ ∧
    (writeLpFile ⟨[⟨"Jo Smith", "QB", 9000, 20⟩, ⟨"Jo-Smith", "QB", 8000, 18⟩],
        [], [], [], [], []⟩ 60000 0 (fun _ => 0)).get? 8 =
      some "bin QB_JoSmith QB_JoSmith;" := by
  constructor <;> decide

end GenLp
